import Mathlib

/-!
Verification of the CivicSignal meeting ingestion-and-indexing pipeline.

The definitions below are a shallow embedding of the Python sources:
`civicsignal/utils.py` (data model), `civicsignal/ingest/archives.py`
(date resolution, transcript caching, transcription retry, meeting
assembly), `civicsignal/transform/embed_meeting.py` (vector-store upsert)
and `civicsignal/cli.py` (backfill orchestration).  Calendar dates are
modelled as integer day numbers; paragraph timestamps as integers (the
verified properties depend only on equality and on rendering them into
id strings, never on float arithmetic).
-/

namespace CivicSignal

/-- Paragraph dataclass from `civicsignal/utils.py`: start_time, end_time,
speaker_id and the ordered list of sentences. -/
structure Paragraph where
  start_time : Int
  end_time : Int
  speaker_id : Int
  sentences : List String
deriving Repr, DecidableEq

/-- Derived attribute `text`: the sentences joined with single spaces
(Python `' '.join(self.sentences)`). -/
def Paragraph.text (p : Paragraph) : String :=
  String.intercalate " " p.sentences

/-- The field names declared by the `@dataclass Meeting` in
`civicsignal/utils.py` (lines 27-33): only date, group, transcript, topics. -/
def meetingDataclassFields : List String :=
  ["date", "group", "transcript", "topics"]

/-- The keyword arguments `get_meeting_transcript` passes to `Meeting(...)`
in `civicsignal/ingest/archives.py` (lines 402-410). -/
def meetingAssemblerKwargs : List String :=
  ["date", "group", "group_id", "transcript", "topics", "video_url", "embed_url"]

/-- Python dataclass constructor-call semantics: the generated `__init__`
accepts a keyword call iff every keyword passed names a declared field and
every declared field receives a value; otherwise it raises `TypeError`. -/
def dataclassCallOk (declared passed : List String) : Bool :=
  passed.all (fun k => declared.contains k) && declared.all (fun k => passed.contains k)

/-- Meeting value exactly as the assembler builds it (the keyword arguments at
`archives.py` lines 402-410).  The `utils.py` dataclass omits `group_id`,
`video_url` and `embed_url`; that mismatch is settled separately. -/
structure Meeting where
  date : Int
  group : String
  group_id : Int
  transcript : List Paragraph
  topics : List String
  video_url : String
  embed_url : String
deriving Repr, DecidableEq

/-! ## Clip-id extraction and embed-url derivation (`archives.py` 136-159, 400-401)

`CLIP_ID_REGEX` is
`https://sanfrancisco.granicus.com/DownloadFile.php\?view_id=([0-9]+)&clip_id=([0-9]+)`
used with `re.search`.  Unescaped `.` is a wildcard; `\?` is a literal
question mark; `[0-9]+` is greedy and here always followed by a non-digit,
so maximal-munch matching coincides with Python regex semantics. -/

/-- The literal head of `CLIP_ID_REGEX` up to `view_id=`, with each regex
wildcard dot represented as `none`. -/
def clipIdPatHead : List (Option Char) :=
  "https://sanfrancisco.granicus.com/DownloadFile.php?view_id=".data.map
    (fun c => if c = '.' then none else some c)

/-- The literal middle part `&clip_id=` of `CLIP_ID_REGEX`. -/
def clipIdPatMid : List (Option Char) :=
  "&clip_id=".data.map some

/-- Match a sequence of literal-or-wildcard characters against the head of
the input, returning the remaining input on success. -/
def matchToks : List (Option Char) → List Char → Option (List Char)
  | [], rest => some rest
  | _ :: _, [] => none
  | p :: ps, c :: cs =>
    match p with
    | none => matchToks ps cs
    | some d => if c = d then matchToks ps cs else none

/-- Greedy `[0-9]+` at the head of the input: the maximal run of digits,
requiring at least one. -/
def takeDigits1 (cs : List Char) : Option (List Char × List Char) :=
  let ds := cs.takeWhile Char.isDigit
  if ds.isEmpty then none else some (ds, cs.dropWhile Char.isDigit)

/-- Attempt `CLIP_ID_REGEX` at this exact position, producing the
`(view_id, clip_id)` capture groups. -/
def matchClipIdAt (cs : List Char) : Option (String × String) := do
  let rest ← matchToks clipIdPatHead cs
  let (vid, rest1) ← takeDigits1 rest
  let rest2 ← matchToks clipIdPatMid rest1
  let (cid, _) ← takeDigits1 rest2
  pure (vid.asString, cid.asString)

/-- `re.search` semantics: try the pattern at each position from the left,
returning the captures of the leftmost match. -/
def searchClipId : List Char → Option (String × String)
  | [] => none
  | c :: cs =>
    match matchClipIdAt (c :: cs) with
    | some r => some r
    | none => searchClipId cs

/-- `get_clip_id_from_video_url` (`archives.py` 153-159): the clip-id capture
on a match; on a miss the empty string is returned and a warning is logged
(second component records whether the warning fired).  No exception path. -/
def get_clip_id_from_video_url (video_url : String) : String × Bool :=
  match searchClipId video_url.data with
  | some (_, cid) => (cid, false)
  | none => ("", true)

/-- `video_url_from_clip_id` (`archives.py` 136-150): the embeddable player
link, with optional entry/stop timestamps. -/
def video_url_from_clip_id (viewId clip_id : String)
    (start_time end_time : Option Int) : String :=
  let ts := (match start_time with
             | some s => ["entrytime=" ++ toString s]
             | none => [])
         ++ (match end_time with
             | some e => ["stoptime=" ++ toString e]
             | none => [])
  let tstr := if ts.length > 0 then "&" ++ String.intercalate "&" ts else ""
  "https://sanfrancisco.granicus.com/player/clip/" ++ clip_id ++ "?view_id=" ++ viewId
    ++ "&redirect=true&embed=1" ++ tstr

/-- The clip-id extraction and embed-url derivation steps of
`get_meeting_transcript` (`archives.py` 400-401): yields
`(clip_id, embed_url, warned)`. -/
def deriveEmbedUrl (viewId video_url : String) : String × String × Bool :=
  let r := get_clip_id_from_video_url video_url
  (r.1, video_url_from_clip_id viewId r.1 none none, r.2)

/-- Substring test on character lists. -/
def listContainsSub (pat : List Char) : List Char → Bool
  | [] => pat.isEmpty
  | c :: cs => pat.isPrefixOf (c :: cs) || listContainsSub pat cs

/-- Substring test on strings. -/
def strContainsSub (s pat : String) : Bool :=
  listContainsSub pat.data s.data

/-! ## Date resolution (`archives.py` 255-278) -/

/-- A parsed feed entry reduced to what date resolution consumes: the
normalized publication date (what `get_date_from_feed_entry` returns,
as a day number) and the entry's audio link. -/
structure FeedEntry where
  entryDate : Int
  audioUrl : String
deriving Repr, DecidableEq

/-- `_get_rss_entry_from_date` (`archives.py` 255-271): scan the entries in
feed order and return the first whose date equals the requested date or
whose `entry_date - date` (a timedelta, in days) is at most the tolerance;
`none` models the raised not-found exception. -/
def getRssEntryFromDate (date tolerance : Int) : List FeedEntry → Option FeedEntry
  | [] => none
  | e :: rest =>
    if e.entryDate = date ∨ e.entryDate - date ≤ tolerance then some e
    else getRssEntryFromDate date tolerance rest

/-- `get_audio_url_from_date` (`archives.py` 273-278): raises when the audio
feed is absent, otherwise resolves the entry at the default one-day
tolerance and returns its audio link. -/
def get_audio_url_from_date (audioFeed : Option (List FeedEntry)) (date : Int) :
    Option String :=
  match audioFeed with
  | none => none
  | some entries => (getRssEntryFromDate date 1 entries).map (fun e => e.audioUrl)

/-! ## Raw transcript model and meeting assembly (`archives.py` 382-412) -/

/-- One sentence of the engine response (only its text is consumed). -/
structure RawSentence where
  text : String
deriving Repr, DecidableEq

/-- One paragraph of the engine response; the response field named `end` is
called `end_` here because `end` is a Lean keyword. -/
structure RawParagraph where
  start : Int
  end_ : Int
  speaker : Int
  sentences : List RawSentence
deriving Repr, DecidableEq

/-- One topic tag of a topic segment. -/
structure TopicTag where
  topic : String
deriving Repr, DecidableEq

/-- One topic segment of the engine response. -/
structure TopicSegment where
  topics : List TopicTag
deriving Repr, DecidableEq

/-- The projection of the engine's `PrerecordedResponse` that
`get_meeting_transcript` consumes:
`results.channels[0].alternatives[0].paragraphs.paragraphs` and
`results.topics.segments`. -/
structure RawTranscript where
  paragraphs : List RawParagraph
  segments : List TopicSegment
deriving Repr, DecidableEq

/-- The `Paragraph(...)` construction inside `get_meeting_transcript`
(`archives.py` 392-397). -/
def mkParagraph (p : RawParagraph) : Paragraph :=
  { start_time := p.start, end_time := p.end_, speaker_id := p.speaker,
    sentences := p.sentences.map (fun s => s.text) }

/-- The paragraph list comprehension of `get_meeting_transcript`
(`archives.py` 391-397). -/
def assembleParagraphs (r : RawTranscript) : List Paragraph :=
  r.paragraphs.map mkParagraph

/-- Every topic label of every segment, in response order: the multiset the
set comprehension at `archives.py` 398 ranges over. -/
def allSegmentTopics (r : RawTranscript) : List String :=
  (r.segments.map (fun seg => seg.topics.map (fun t => t.topic))).flatten

/-- `unique_topics` (`archives.py` 398): the set of all segment topic labels,
materialized as a list (`list(set)`; iteration order unspecified, modelled
as first occurrences). -/
def uniqueTopics (r : RawTranscript) : List String :=
  (allSegmentTopics r).dedup

/-- The assembly core of `get_meeting_transcript` (`archives.py` 390-410):
builds the Meeting value whose fields are handed to the constructor, from
the raw response plus the resolved video url.  `viewId` is the source
enum's numeric value. -/
def assembleMeeting (date : Int) (group : String) (groupId : Int)
    (viewId video_url : String) (r : RawTranscript) : Meeting :=
  let d := deriveEmbedUrl viewId video_url
  { date := date, group := group, group_id := groupId,
    transcript := assembleParagraphs r, topics := uniqueTopics r,
    video_url := video_url, embed_url := d.2.1 }

/-! ## Association-list helpers (Python dict and file-system models) -/

/-- Dict/file-map assignment: replace the value under an existing key,
append a new key otherwise. -/
def setAssoc {α β : Type} [BEq α] : List (α × β) → α → β → List (α × β)
  | [], k, v => [(k, v)]
  | e :: rest, k, v =>
    if e.1 == k then (k, v) :: rest else e :: setAssoc rest k v

/-- Dict/file-map lookup. -/
def getAssoc {α β : Type} [BEq α] : List (α × β) → α → Option β
  | [], _ => none
  | e :: rest, k => if e.1 == k then some e.2 else getAssoc rest k

/-! ## Vector-store upsert (`transform/embed_meeting.py` 21-43) -/

/-- The metadata record built for each paragraph
(`embed_meeting.py` 29-36). -/
structure DocMetadata where
  start_time : Int
  end_time : Int
  speaker_id : Int
  meeting_date : Int
  meeting_group : String
  video_url : String
deriving Repr, DecidableEq

/-- A document held by the vector-store collection. -/
structure StoredDoc where
  id : String
  document : String
  metadata : DocMetadata
deriving Repr, DecidableEq

/-- The deterministic document id built by `embed_meeting`
(`embed_meeting.py` 27): `date_group_start_end`. -/
def docId (m : Meeting) (p : Paragraph) : String :=
  toString m.date ++ "_" ++ m.group ++ "_" ++ toString p.start_time
    ++ "_" ++ toString p.end_time

/-- The metadata dict built by `embed_meeting` (`embed_meeting.py` 29-36). -/
def docMetadata (m : Meeting) (p : Paragraph) : DocMetadata :=
  { start_time := p.start_time, end_time := p.end_time,
    speaker_id := p.speaker_id, meeting_date := m.date,
    meeting_group := m.group, video_url := m.video_url }

/-- Upsert semantics of the vector-store collection: a document whose id is
already present replaces the existing one, a new id is appended. -/
def upsertOne : List StoredDoc → StoredDoc → List StoredDoc
  | [], d => [d]
  | e :: rest, d =>
    if e.id == d.id then d :: rest else e :: upsertOne rest d

/-- The batched `collection.upsert` call (`embed_meeting.py` 39-43),
processing the batch in list order. -/
def upsertBatch (store : List StoredDoc) (ds : List StoredDoc) : List StoredDoc :=
  ds.foldl upsertOne store

/-- `embed_meeting` (`embed_meeting.py` 21-43): one document per paragraph,
batch-upserted into the collection. -/
def embed_meeting (store : List StoredDoc) (m : Meeting) : List StoredDoc :=
  upsertBatch store
    (m.transcript.map (fun p =>
      { id := docId m p, document := p.text, metadata := docMetadata m p }))

/-- Whether a document with this id is stored. -/
def hasId (store : List StoredDoc) (i : String) : Bool :=
  store.any (fun e => e.id == i)

/-! ## Disk write as a file-system trace (`archives.py` 248-252) -/

/-- File-system operations relevant to the cache write path. -/
inductive FsOp where
  | openTrunc : String → FsOp
  | write : String → String → FsOp
  | close : String → FsOp
  | rename : String → String → FsOp
deriving Repr, DecidableEq

/-- Whether the operation is a rename. -/
def FsOp.isRename : FsOp → Bool
  | .rename _ _ => true
  | _ => false

/-- Effect of one operation on the file system (paths to contents). -/
def applyFsOp (fs : List (String × String)) : FsOp → List (String × String)
  | .openTrunc p => setAssoc fs p ""
  | .write p s => setAssoc fs p (((getAssoc fs p).getD "") ++ s)
  | .close _ => fs
  | .rename src dst =>
    match getAssoc fs src with
    | some c => setAssoc (fs.filter (fun e => !(e.1 == src))) dst c
    | none => fs

/-- Run a trace of operations. -/
def runFsOps (fs : List (String × String)) (ops : List FsOp) :
    List (String × String) :=
  ops.foldl applyFsOp fs

/-- Concatenation of the streamed serialization chunks: the full file
content a completed write produces. -/
def concatChunks : List String → String
  | [] => ""
  | c :: rest => c ++ concatChunks rest

/-- The trace `_save_transcript_to_disk` performs (`archives.py` 248-252):
`open(path, "w")` truncates the destination in place, `json.dump` streams
the serialized transcript in chunks, then the file is closed.  No
temporary file, no rename. -/
def saveTranscriptOps (path : String) (chunks : List String) : List FsOp :=
  FsOp.openTrunc path :: (chunks.map (fun c => FsOp.write path c) ++ [FsOp.close path])

/-! ## Transcript cache (`archives.py` 219-252, 366-379) -/

/-- A JSON value (what `json.dump`/`json.load` move to and from disk). -/
inductive Json where
  | str : String → Json
  | num : Int → Json
  | arr : List Json → Json
  | obj : List (String × Json) → Json
deriving Repr

/-- Element-wise deserialization of a JSON array: all elements must parse. -/
def optTraverse {α β : Type} (f : α → Option β) : List α → Option (List β)
  | [] => some []
  | x :: xs =>
    match f x, optTraverse f xs with
    | some y, some ys => some (y :: ys)
    | _, _ => none

/-- Serialization of one sentence (`to_dict` projection). -/
def sentenceToJson (s : RawSentence) : Json :=
  .obj [("text", .str s.text)]

/-- Deserialization of one sentence (`from_dict` projection). -/
def sentenceFromJson : Json → Option RawSentence
  | .obj [("text", .str t)] => some ⟨t⟩
  | _ => none

/-- Serialization of one paragraph. -/
def paragraphToJson (p : RawParagraph) : Json :=
  .obj [("start", .num p.start), ("end", .num p.end_), ("speaker", .num p.speaker),
        ("sentences", .arr (p.sentences.map sentenceToJson))]

/-- Deserialization of one paragraph. -/
def paragraphFromJson : Json → Option RawParagraph
  | .obj [("start", .num a), ("end", .num b), ("speaker", .num sp),
          ("sentences", .arr xs)] =>
    (optTraverse sentenceFromJson xs).map (fun ss => ⟨a, b, sp, ss⟩)
  | _ => none

/-- Serialization of one topic tag. -/
def topicTagToJson (t : TopicTag) : Json :=
  .obj [("topic", .str t.topic)]

/-- Deserialization of one topic tag. -/
def topicTagFromJson : Json → Option TopicTag
  | .obj [("topic", .str t)] => some ⟨t⟩
  | _ => none

/-- Serialization of one topic segment. -/
def segmentToJson (s : TopicSegment) : Json :=
  .obj [("topics", .arr (s.topics.map topicTagToJson))]

/-- Deserialization of one topic segment. -/
def segmentFromJson : Json → Option TopicSegment
  | .obj [("topics", .arr xs)] =>
    (optTraverse topicTagFromJson xs).map (fun ts => ⟨ts⟩)
  | _ => none

/-- Serialization of the transcript projection
(`PrerecordedResponse.to_dict` followed by `json.dump`). -/
def transcriptToJson (r : RawTranscript) : Json :=
  .obj [("paragraphs", .arr (r.paragraphs.map paragraphToJson)),
        ("segments", .arr (r.segments.map segmentToJson))]

/-- Deserialization of the transcript projection
(`json.load` followed by `PrerecordedResponse.from_dict`). -/
def transcriptFromJson : Json → Option RawTranscript
  | .obj [("paragraphs", .arr ps), ("segments", .arr ss)] =>
    match optTraverse paragraphFromJson ps, optTraverse segmentFromJson ss with
    | some ps2, some ss2 => some ⟨ps2, ss2⟩
    | _, _ => none
  | _ => none

/-- The per-key cache file path (`_transcript_path`, `archives.py` 236-237). -/
def transcriptPath (sourceName : String) (date : Int) : String :=
  "cache/transcript_" ++ toString date ++ "_" ++ sourceName ++ ".json"

/-- Transcript-cache state of one parser instance:
`transcript_response_cache` (in-memory tier), `transcript_response_disk_cache`
(date-to-path disk index) and the cache-directory contents. -/
structure CacheState where
  memCache : List (Int × RawTranscript)
  diskIndex : List (Int × String)
  files : List (String × Json)
deriving Repr

/-- `put`: `transcript_response_cache[date] = response` followed by
`_save_transcript_to_disk` (`archives.py` 357-358 and 248-252): fill the
in-memory tier, register the per-key path if absent, overwrite the file
with the serialized transcript. -/
def putTranscript (sourceName : String) (st : CacheState) (date : Int)
    (t : RawTranscript) : CacheState :=
  let idx := match getAssoc st.diskIndex date with
             | some _ => st.diskIndex
             | none => setAssoc st.diskIndex date (transcriptPath sourceName date)
  let path := (getAssoc idx date).getD (transcriptPath sourceName date)
  { memCache := setAssoc st.memCache date t,
    diskIndex := idx,
    files := setAssoc st.files path (transcriptToJson t) }

/-- `_get_transcript_from_disk` (`archives.py` 239-246): requires the date to
be registered in the disk index and the file to exist; deserializes and
populates the in-memory tier; `none` models the raised exception (a missing
or unparseable file included). -/
def getTranscriptFromDisk (st : CacheState) (date : Int) :
    Option (RawTranscript × CacheState) :=
  match getAssoc st.diskIndex date with
  | none => none
  | some path =>
    match getAssoc st.files path with
    | none => none
    | some j =>
      match transcriptFromJson j with
      | none => none
      | some t => some (t, { st with memCache := setAssoc st.memCache date t })

/-- The cache `get` of `_get_raw_transcribed_meeting` (`archives.py`
370-376): the in-memory tier first, then the disk tier. -/
def getTranscript (st : CacheState) (date : Int) : Option RawTranscript :=
  match getAssoc st.memCache date with
  | some t => some t
  | none => (getTranscriptFromDisk st date).map (fun r => r.1)

/-! ## Transcription retry loop (`archives.py` 313-364) -/

/-- The retry loop of `_transcribe_audio` (`archives.py` 334-355) with
`max_retries = 3` and `retry_delay = 5`.  `oracle n` is the outcome of the
n-th download-and-transcribe attempt (the bare `except Exception` catches
every raised error alike); `jitter n` is the `random.uniform(0, 1)` draw
before retry n.  Returns the response together with the waits slept between
attempts, or the final error message; `remaining = maxRetries - attempt` is
the structural fuel, and fuel exhaustion (unreachable from `attempt = 0`
when `maxRetries ≥ 1`) models Python's unbound `response` after the loop. -/
def transcribeLoop (oracle : Nat → Except String RawTranscript)
    (jitter : Nat → ℚ) (sourceName dateStr : String)
    (maxRetries : Nat) (retryDelay : ℚ) :
    Nat → Nat → List ℚ → Except String (RawTranscript × List ℚ)
  | 0, _, _ => .error "NameError: response is unbound"
  | r + 1, attempt, waits =>
    match oracle attempt with
    | .ok resp => .ok (resp, waits)
    | .error e =>
      if attempt + 1 = maxRetries then
        .error ("Failed to transcribe " ++ sourceName ++ " on " ++ dateStr
          ++ " after " ++ toString maxRetries ++ " attempts: " ++ e)
      else
        transcribeLoop oracle jitter sourceName dateStr maxRetries retryDelay
          r (attempt + 1)
          (waits ++ [retryDelay * ((attempt : ℚ) + 1) + jitter (attempt + 1)])

/-- `_transcribe_audio`'s retry behaviour from a cold cache
(`archives.py` 334-355), instantiated at the source constants. -/
def transcribeAudio (oracle : Nat → Except String RawTranscript)
    (jitter : Nat → ℚ) (sourceName dateStr : String) :
    Except String (RawTranscript × List ℚ) :=
  transcribeLoop oracle jitter sourceName dateStr 3 5 3 0 []

/-! ## Backfill rate limiting (`cli.py` 232-246) -/

/-- Cache membership of one parser instance, as the backfill loop sees it:
the dates present in `transcript_response_cache`,
`transcript_response_disk_cache` and `meeting_cache`. -/
structure ParserCaches where
  memT : List Int
  diskT : List Int
  meetings : List Int
deriving Repr, DecidableEq

/-- A date needs a fresh transcription call iff no cache tier holds it
(`archives.py` 382-389, 366-379, 313-318). -/
def requiresFreshTranscription (st : ParserCaches) (d : Int) : Bool :=
  !(st.meetings.contains d) && !(st.memT.contains d) && !(st.diskT.contains d)

/-- The rate-limit delay of the backfill loop (`cli.py` 232-236): sleep 15
seconds when the date is not in the parser's `meeting_cache`, none
otherwise. -/
def backfillItemDelay (st : ParserCaches) (d : Int) : Nat :=
  if st.meetings.contains d then 0 else 15

end CivicSignal

/-! # Theorems -/

namespace CivicSignal

/-! ## Helper lemmas: vector-store upsert accounting -/

theorem hasId_upsertOne_self (s : List StoredDoc) (d : StoredDoc) :
    hasId (upsertOne s d) d.id = true := by
  induction s with
  | nil => simp [upsertOne, hasId]
  | cons e rest ih =>
    cases hb : e.id == d.id with
    | true => simp [upsertOne, hb, hasId]
    | false =>
      simp only [upsertOne, hb, Bool.false_eq_true, if_false, hasId, List.any_cons,
        Bool.or_eq_true]
      exact Or.inr ih

theorem hasId_upsertOne_mono (s : List StoredDoc) (d : StoredDoc) (i : String)
    (h : hasId s i = true) : hasId (upsertOne s d) i = true := by
  induction s with
  | nil => simp [hasId] at h
  | cons e rest ih =>
    simp only [hasId, List.any_cons, Bool.or_eq_true] at h
    cases hb : e.id == d.id with
    | true =>
      simp only [upsertOne, hb, if_true, hasId, List.any_cons, Bool.or_eq_true]
      rcases h with h | h
      · left
        have h1 : e.id = d.id := LawfulBEq.eq_of_beq hb
        have h2 : e.id = i := LawfulBEq.eq_of_beq h
        rw [← h1, h2]
        exact LawfulBEq.rfl
      · right; exact h
    | false =>
      simp only [upsertOne, hb, Bool.false_eq_true, if_false, hasId, List.any_cons,
        Bool.or_eq_true]
      rcases h with h | h
      · left; exact h
      · right; exact ih h

theorem length_upsertOne_of_hasId (s : List StoredDoc) (d : StoredDoc)
    (h : hasId s d.id = true) : (upsertOne s d).length = s.length := by
  induction s with
  | nil => simp [hasId] at h
  | cons e rest ih =>
    simp only [hasId, List.any_cons, Bool.or_eq_true] at h
    cases hb : e.id == d.id with
    | true => simp [upsertOne, hb]
    | false =>
      rcases h with h | h
      · rw [hb] at h; cases h
      · simp only [upsertOne, hb, Bool.false_eq_true, if_false, List.length_cons]
        rw [ih h]

theorem length_upsertOne_le (s : List StoredDoc) (d : StoredDoc) :
    (upsertOne s d).length ≤ s.length + 1 := by
  induction s with
  | nil => simp [upsertOne]
  | cons e rest ih =>
    cases hb : e.id == d.id with
    | true => simp [upsertOne, hb]
    | false =>
      simp only [upsertOne, hb, Bool.false_eq_true, if_false, List.length_cons]
      omega

theorem hasId_upsertBatch_mono (ds : List StoredDoc) (s : List StoredDoc) (i : String)
    (h : hasId s i = true) : hasId (upsertBatch s ds) i = true := by
  induction ds generalizing s with
  | nil => exact h
  | cons d rest ih =>
    simp only [upsertBatch, List.foldl_cons]
    exact ih (upsertOne s d) (hasId_upsertOne_mono s d i h)

theorem hasId_upsertBatch_of_mem (ds : List StoredDoc) (s : List StoredDoc)
    (d : StoredDoc) (h : d ∈ ds) : hasId (upsertBatch s ds) d.id = true := by
  induction ds generalizing s with
  | nil => cases h
  | cons e rest ih =>
    simp only [upsertBatch, List.foldl_cons]
    rcases List.mem_cons.mp h with h | h
    · subst h
      exact hasId_upsertBatch_mono rest (upsertOne s d) d.id (hasId_upsertOne_self s d)
    · exact ih (upsertOne s e) h

theorem length_upsertBatch_of_all (ds : List StoredDoc) (s : List StoredDoc)
    (h : ∀ d ∈ ds, hasId s d.id = true) :
    (upsertBatch s ds).length = s.length := by
  induction ds generalizing s with
  | nil => rfl
  | cons d rest ih =>
    simp only [upsertBatch, List.foldl_cons]
    have hd : hasId s d.id = true := h d (List.mem_cons_self d rest)
    have hall : (upsertBatch (upsertOne s d) rest).length = (upsertOne s d).length :=
      ih (upsertOne s d)
        (fun e he => hasId_upsertOne_mono s d e.id (h e (List.mem_cons_of_mem d he)))
    rw [upsertBatch] at hall
    rw [hall, length_upsertOne_of_hasId s d hd]

theorem length_upsertBatch_le (ds : List StoredDoc) (s : List StoredDoc) :
    (upsertBatch s ds).length ≤ s.length + ds.length := by
  induction ds generalizing s with
  | nil => simp [upsertBatch]
  | cons d rest ih =>
    simp only [upsertBatch, List.foldl_cons, List.length_cons]
    have h1 := ih (upsertOne s d)
    have h2 := length_upsertOne_le s d
    rw [upsertBatch] at h1
    omega

theorem length_upsertBatch_lt_of_present (ds : List StoredDoc) (s : List StoredDoc)
    (h : ∃ d ∈ ds, hasId s d.id = true) :
    (upsertBatch s ds).length < s.length + ds.length := by
  induction ds generalizing s with
  | nil =>
    rcases h with ⟨d, hd, _⟩
    cases hd
  | cons e rest ih =>
    simp only [upsertBatch, List.foldl_cons, List.length_cons]
    rcases h with ⟨d, hd, hpres⟩
    rcases List.mem_cons.mp hd with hde | hdr
    · subst hde
      have h1 : (upsertOne s d).length = s.length := length_upsertOne_of_hasId s d hpres
      have h2 := length_upsertBatch_le rest (upsertOne s d)
      rw [upsertBatch] at h2
      omega
    · have h1 : hasId (upsertOne s e) d.id = true := hasId_upsertOne_mono s e d.id hpres
      have h2 := ih (upsertOne s e) ⟨d, hdr, h1⟩
      have h3 := length_upsertOne_le s e
      rw [upsertBatch] at h2
      omega

theorem length_upsertBatch_lt_of_dup (ds : List StoredDoc) (s : List StoredDoc)
    (h : ¬ (ds.map (fun d => d.id)).Nodup) :
    (upsertBatch s ds).length < s.length + ds.length := by
  induction ds generalizing s with
  | nil => exact absurd List.nodup_nil h
  | cons e rest ih =>
    simp only [List.map_cons, List.nodup_cons, not_and_or] at h
    simp only [upsertBatch, List.foldl_cons, List.length_cons]
    rcases h with h | h
    · push_neg at h
      rcases List.mem_map.mp h with ⟨d, hdr, hid⟩
      have h1 : hasId (upsertOne s e) d.id = true := by
        rw [hid]
        exact hasId_upsertOne_self s e
      have h2 := length_upsertBatch_lt_of_present rest (upsertOne s e) ⟨d, hdr, h1⟩
      have h3 := length_upsertOne_le s e
      rw [upsertBatch] at h2
      omega
    · have h2 := ih (upsertOne s e) h
      have h3 := length_upsertOne_le s e
      rw [upsertBatch] at h2
      omega

/-! ## Helper lemmas: association maps, file traces, serialization -/

theorem getAssoc_setAssoc_self {α β : Type} [BEq α] [LawfulBEq α]
    (m : List (α × β)) (k : α) (v : β) : getAssoc (setAssoc m k v) k = some v := by
  induction m with
  | nil => simp [setAssoc, getAssoc]
  | cons e rest ih =>
    cases hb : e.1 == k with
    | true => simp [setAssoc, hb, getAssoc]
    | false => simp [setAssoc, hb, getAssoc, ih]

theorem getAssoc_runWrites (p : String) (chunks : List String)
    (fs : List (String × String)) (c : String) (h : getAssoc fs p = some c) :
    getAssoc (runFsOps fs (chunks.map (fun s => FsOp.write p s))) p
      = some (c ++ concatChunks chunks) := by
  induction chunks generalizing fs c with
  | nil => simpa [runFsOps, concatChunks, String.append_empty] using h
  | cons ch rest ih =>
    simp only [List.map_cons, runFsOps, List.foldl_cons]
    have h2 : getAssoc (applyFsOp fs (FsOp.write p ch)) p = some (c ++ ch) := by
      simp [applyFsOp, h, getAssoc_setAssoc_self]
    have h3 := ih _ _ h2
    rw [runFsOps] at h3
    rw [h3, concatChunks, String.append_assoc]

theorem optTraverse_map_roundtrip {α β : Type} (f : α → β) (g : β → Option α)
    (h : ∀ a, g (f a) = some a) (l : List α) :
    optTraverse g (l.map f) = some l := by
  induction l with
  | nil => rfl
  | cons x xs ih => simp [optTraverse, h, ih]

theorem sentence_roundtrip (s : RawSentence) :
    sentenceFromJson (sentenceToJson s) = some s := rfl

theorem topicTag_roundtrip (t : TopicTag) :
    topicTagFromJson (topicTagToJson t) = some t := rfl

theorem paragraph_roundtrip (p : RawParagraph) :
    paragraphFromJson (paragraphToJson p) = some p := by
  simp [paragraphToJson, paragraphFromJson,
    optTraverse_map_roundtrip sentenceToJson sentenceFromJson sentence_roundtrip]

theorem segment_roundtrip (s : TopicSegment) :
    segmentFromJson (segmentToJson s) = some s := by
  simp [segmentToJson, segmentFromJson,
    optTraverse_map_roundtrip topicTagToJson topicTagFromJson topicTag_roundtrip]

theorem transcript_roundtrip (r : RawTranscript) :
    transcriptFromJson (transcriptToJson r) = some r := by
  simp [transcriptToJson, transcriptFromJson,
    optTraverse_map_roundtrip paragraphToJson paragraphFromJson paragraph_roundtrip,
    optTraverse_map_roundtrip segmentToJson segmentFromJson segment_roundtrip]

theorem getRssEntryFromDate_eq_find (date : Int) (entries : List FeedEntry) :
    getRssEntryFromDate date 1 entries =
      entries.find? (fun e => decide (e.entryDate - date ≤ 1)) := by
  induction entries with
  | nil => rfl
  | cons e rest ih =>
    by_cases h : e.entryDate - date ≤ 1
    · have h2 : e.entryDate = date ∨ e.entryDate - date ≤ 1 := Or.inr h
      simp [getRssEntryFromDate, List.find?, h, h2]
    · have hne : ¬ e.entryDate = date := by omega
      simp [getRssEntryFromDate, List.find?, h, hne, ih]

theorem video_url_from_clip_id_ne_empty (viewId : String) :
    video_url_from_clip_id viewId "" none none ≠ "" := by
  unfold video_url_from_clip_id
  simp only [List.append_nil, List.length_nil, gt_iff_lt, Nat.lt_irrefl, if_false]
  intro h
  have h2 := congrArg String.length h
  simp only [String.length_append] at h2
  have e1 : "https://sanfrancisco.granicus.com/player/clip/".length = 46 := rfl
  have e2 : "?view_id=".length = 9 := rfl
  have e3 : "&redirect=true&embed=1".length = 22 := rfl
  have e4 : "".length = 0 := rfl
  omega

end CivicSignal

namespace CivicSignal

/-! ## Claim theorems -/

/-- C1: the `Meeting` dataclass in `utils.py` declares only date, group,
transcript and topics, while `get_meeting_transcript` passes `group_id`,
`video_url` and `embed_url` keywords as well (and `embed_meeting` reads
`meeting.video_url`), so the generated dataclass constructor rejects the
call with `TypeError`: assembly can never succeed and no Meeting carrying
all the fields the data model promises is ever produced. -/
theorem meeting_constructor_call_rejected :
    dataclassCallOk meetingDataclassFields meetingAssemblerKwargs = false := by decide

/-- C2 (amended): a video URL matching the DownloadFile pattern
(e.g. `view_id=20&clip_id=555`) yields clip id `"555"` and a non-empty
embed_url containing `clip/555` with no warning; a URL not matching the
pattern yields clip id `""`, a logged warning and no exception, but the
embed_url is then the non-empty player URL with an empty clip segment,
not the empty string the claim states. -/
theorem clip_embed_url_derivation (viewId url : String)
    (h : searchClipId url.data = none) :
    (deriveEmbedUrl "20"
        "https://sanfrancisco.granicus.com/DownloadFile.php?view_id=20&clip_id=555" =
      ("555",
       "https://sanfrancisco.granicus.com/player/clip/555?view_id=20&redirect=true&embed=1",
       false) ∧
     strContainsSub
       (deriveEmbedUrl "20"
         "https://sanfrancisco.granicus.com/DownloadFile.php?view_id=20&clip_id=555").2.1
       "clip/555" = true) ∧
    deriveEmbedUrl viewId url = ("", video_url_from_clip_id viewId "" none none, true) ∧
    video_url_from_clip_id viewId "" none none ≠ "" := by
  refine ⟨⟨by decide, by decide⟩, ?_, video_url_from_clip_id_ne_empty viewId⟩
  simp [deriveEmbedUrl, get_clip_id_from_video_url, h]

/-- C2 witness: the amended statement instantiated at the non-matching URL
`https://example.com/x` and view id `"10"`. -/
theorem clip_embed_url_derivation_witness :
    searchClipId ("https://example.com/x").data = none ∧
    ((deriveEmbedUrl "20"
        "https://sanfrancisco.granicus.com/DownloadFile.php?view_id=20&clip_id=555" =
      ("555",
       "https://sanfrancisco.granicus.com/player/clip/555?view_id=20&redirect=true&embed=1",
       false) ∧
     strContainsSub
       (deriveEmbedUrl "20"
         "https://sanfrancisco.granicus.com/DownloadFile.php?view_id=20&clip_id=555").2.1
       "clip/555" = true) ∧
    deriveEmbedUrl "10" "https://example.com/x" =
      ("", video_url_from_clip_id "10" "" none none, true) ∧
    video_url_from_clip_id "10" "" none none ≠ "") :=
  ⟨by decide, clip_embed_url_derivation "10" "https://example.com/x" (by decide)⟩

/-- C2 counterexample: `https://example.com/video` does not match
`CLIP_ID_REGEX`, the clip id is `""` and a warning is logged, yet the
derived embed_url is not the empty string, contrary to the claim. -/
theorem embed_url_nonempty_on_miss :
    searchClipId ("https://example.com/video").data = none ∧
    get_clip_id_from_video_url "https://example.com/video" = ("", true) ∧
    (deriveEmbedUrl "10" "https://example.com/video").2.1 ≠ "" := by
  refine ⟨by decide, by decide, by decide⟩

/-- C3 (amended): `_get_rss_entry_from_date` returns the first entry in feed
order satisfying `entry_date - date ≤ 1` day — a condition that an entry
published on/before the requested date also satisfies (the comparison has no
lower bound), not only entries on/after it; an entry one day after the
requested date matches, one two days after does not, and the not-found
exception is raised exactly when no entry satisfies the condition;
`get_audio_url_from_date` resolves through the same policy. -/
theorem rss_entry_resolution (date : Int) (entries : List FeedEntry) (u : String) :
    getRssEntryFromDate date 1 entries =
      entries.find? (fun e => decide (e.entryDate - date ≤ 1)) ∧
    (getRssEntryFromDate date 1 entries = none ↔
      ∀ e ∈ entries, ¬ (e.entryDate - date ≤ 1)) ∧
    get_audio_url_from_date (some entries) date =
      (entries.find? (fun e => decide (e.entryDate - date ≤ 1))).map
        (fun e => e.audioUrl) ∧
    getRssEntryFromDate date 1 [⟨date + 1, u⟩] = some ⟨date + 1, u⟩ ∧
    getRssEntryFromDate date 1 [⟨date + 2, u⟩] = none := by
  refine ⟨getRssEntryFromDate_eq_find date entries, ?_, ?_, ?_, ?_⟩
  · rw [getRssEntryFromDate_eq_find date entries]
    rw [List.find?_eq_none]
    constructor
    · intro h e he
      have h2 := h e he
      simpa using h2
    · intro h e he
      simpa using h e he
  · simp [get_audio_url_from_date, getRssEntryFromDate_eq_find date entries]
  · have h : (date + 1 : Int) = date ∨ (date + 1 : Int) - date ≤ 1 := by omega
    simp [getRssEntryFromDate, h]
  · have h : ¬ ((date + 2 : Int) = date ∨ (date + 2 : Int) - date ≤ 1) := by omega
    simp [getRssEntryFromDate, h]

/-- C3 counterexample: an entry published two days before the requested date
is returned by the scan, although the claim states only entries published
on/after the target date match (so the resolver should have reported
not-found). -/
theorem rss_entry_past_date_matches :
    getRssEntryFromDate 1000 1 [⟨998, "audio.mp3"⟩] = some ⟨998, "audio.mp3"⟩ ∧
    (998 : Int) < 1000 := by
  refine ⟨?_, by decide⟩
  simp [getRssEntryFromDate]

/-- C4: assembling a raw transcript with N paragraphs yields a Meeting with
exactly N paragraphs, in engine order with sentence content preserved; each
assembled paragraph's `text` is its raw sentences joined with single spaces;
and the topics list is a subset of the union of all segment topics with no
duplicates. -/
theorem assemble_meeting_paragraphs_topics (date : Int) (group : String) (groupId : Int)
    (viewId video_url : String) (r : RawTranscript) :
    (assembleMeeting date group groupId viewId video_url r).transcript.length
        = r.paragraphs.length ∧
    (assembleMeeting date group groupId viewId video_url r).transcript.map
        (fun p => p.sentences)
      = r.paragraphs.map (fun p => p.sentences.map (fun s => s.text)) ∧
    (assembleMeeting date group groupId viewId video_url r).transcript.map Paragraph.text
      = r.paragraphs.map
          (fun p => String.intercalate " " (p.sentences.map (fun s => s.text))) ∧
    (assembleMeeting date group groupId viewId video_url r).topics ⊆ allSegmentTopics r ∧
    (assembleMeeting date group groupId viewId video_url r).topics.Nodup := by
  refine ⟨?_, ?_, ?_, ?_, ?_⟩
  · simp [assembleMeeting, assembleParagraphs]
  · simp [assembleMeeting, assembleParagraphs, mkParagraph, List.map_map, Function.comp]
  · simp [assembleMeeting, assembleParagraphs, mkParagraph, Paragraph.text,
      List.map_map, Function.comp]
  · simpa [assembleMeeting, uniqueTopics] using List.dedup_subset (allSegmentTopics r)
  · simpa [assembleMeeting, uniqueTopics] using List.nodup_dedup (allSegmentTopics r)

/-- C5: upserting the same meeting twice leaves the store with the same
document count as a single upsert — every document of the second batch
carries an id already present after the first, so it replaces rather than
duplicates. -/
theorem embed_meeting_idempotent_store (store : List StoredDoc) (m : Meeting) :
    (embed_meeting (embed_meeting store m) m).length = (embed_meeting store m).length := by
  unfold embed_meeting
  apply length_upsertBatch_of_all
  intro d hd
  exact hasId_upsertBatch_of_mem _ store d hd

/-- C6 (amended): the disk write of `put` is a full in-place overwrite of the
per-key file — the final content is exactly the freshly serialized payload,
the trace contains no rename (so no write-then-rename), and both cache tiers
are written; crash safety does NOT hold (see the counterexample). -/
theorem save_transcript_overwrite (sourceName path : String) (chunks : List String)
    (fs : List (String × String)) (st : CacheState) (date : Int) (t : RawTranscript) :
    getAssoc (runFsOps fs (saveTranscriptOps path chunks)) path
      = some (concatChunks chunks) ∧
    (saveTranscriptOps path chunks).all (fun op => !op.isRename) = true ∧
    getAssoc (putTranscript sourceName st date t).memCache date = some t ∧
    (getAssoc (putTranscript sourceName st date t).diskIndex date).isSome = true := by
  refine ⟨?_, ?_, ?_, ?_⟩
  · simp only [saveTranscriptOps, runFsOps, List.foldl_cons, List.foldl_append]
    have h0 : getAssoc (applyFsOp fs (FsOp.openTrunc path)) path = some "" := by
      simp [applyFsOp, getAssoc_setAssoc_self]
    have h1 := getAssoc_runWrites path chunks _ _ h0
    rw [runFsOps] at h1
    simpa [applyFsOp] using h1
  · simp [saveTranscriptOps, List.all_append, FsOp.isRename, List.all_eq_true]
  · simp [putTranscript, getAssoc_setAssoc_self]
  · cases hidx : getAssoc st.diskIndex date with
    | none => simp [putTranscript, hidx, getAssoc_setAssoc_self]
    | some p0 => simp [putTranscript, hidx]

/-- C6 counterexample: the write trace contains no rename, and a crash after
the truncating open plus the first chunk leaves the cache file holding a
partial payload that is neither the old content nor the full new content —
the claimed crash safety fails. -/
theorem save_transcript_not_atomic :
    (saveTranscriptOps "cache/transcript_737_BOARD_OF_SUPERVISORS.json"
        ["chunkA", "chunkB"]).all (fun op => !op.isRename) = true ∧
    getAssoc
      (runFsOps [("cache/transcript_737_BOARD_OF_SUPERVISORS.json", "old full transcript")]
        ((saveTranscriptOps "cache/transcript_737_BOARD_OF_SUPERVISORS.json"
          ["chunkA", "chunkB"]).take 2))
      "cache/transcript_737_BOARD_OF_SUPERVISORS.json" = some "chunkA" ∧
    "chunkA" ≠ "old full transcript" ∧
    "chunkA" ≠ concatChunks ["chunkA", "chunkB"] := by
  refine ⟨by decide, by decide, by decide, by decide⟩

/-- C7: cache round-trip — after `put` of any transcript under any date,
`get` returns a transcript structurally equal to the one written, and the
disk tier alone (deserializing the per-key JSON file) reproduces it as
well. -/
theorem transcript_cache_roundtrip (sourceName : String) (st : CacheState) (date : Int)
    (t : RawTranscript) :
    getTranscript (putTranscript sourceName st date t) date = some t ∧
    (getTranscriptFromDisk (putTranscript sourceName st date t) date).map (fun r => r.1)
      = some t := by
  constructor
  · simp [getTranscript, putTranscript, getAssoc_setAssoc_self]
  · cases hidx : getAssoc st.diskIndex date with
    | none =>
      simp [getTranscriptFromDisk, putTranscript, hidx, getAssoc_setAssoc_self,
        transcript_roundtrip]
    | some p0 =>
      simp [getTranscriptFromDisk, putTranscript, hidx, getAssoc_setAssoc_self,
        transcript_roundtrip]

/-- C8 (amended): the transcription call is retried up to 3 attempts on ANY
exception raised inside the loop — the bare `except Exception` does not
distinguish transient from auth or malformed-response errors raised by the
call — with waits `retry_delay * attempt + jitter` (5s base) between
attempts, and exhausting the retries raises an error carrying the attempt
count and the last cause.  Only errors raised outside the loop (e.g. while
parsing the response later) propagate without retry. -/
theorem transcribe_retry_behavior (o0 o1 o2 : Except String RawTranscript)
    (jitter : Nat → ℚ) (sourceName dateStr : String) :
    transcribeAudio (fun n => if n = 0 then o0 else if n = 1 then o1 else o2)
        jitter sourceName dateStr =
      match o0 with
      | .ok t => .ok (t, [])
      | .error _ =>
        match o1 with
        | .ok t => .ok (t, [5 + jitter 1])
        | .error _ =>
          match o2 with
          | .ok t => .ok (t, [5 + jitter 1, 10 + jitter 2])
          | .error e2 =>
            .error ("Failed to transcribe " ++ sourceName ++ " on " ++ dateStr
              ++ " after " ++ toString 3 ++ " attempts: " ++ e2) := by
  cases o0 with
  | ok t => rfl
  | error e0 =>
    cases o1 with
    | ok t => norm_num [transcribeAudio, transcribeLoop]
    | error e1 =>
      cases o2 with
      | ok t => norm_num [transcribeAudio, transcribeLoop]
      | error e2 => norm_num [transcribeAudio, transcribeLoop]

/-- C8 counterexample: an auth error (`401 Unauthorized`) raised by the
first attempt is caught and retried — the run succeeds on attempt two after
a 5-second wait instead of propagating the auth error immediately as the
claim states. -/
theorem transcribe_auth_error_retried :
    transcribeAudio
      (fun n => if n = 0 then .error "401 Unauthorized: invalid API key"
                else .ok (⟨[], []⟩ : RawTranscript))
      (fun _ => 0) "BOARD_OF_SUPERVISORS" "2024-01-15" =
      .ok ((⟨[], []⟩ : RawTranscript), [5]) := by
  norm_num [transcribeAudio, transcribeLoop]

/-- C9 (amended): the backfill loop's delay decision, for every cache state
and every date: the 15-second sleep is skipped exactly when the date's
Meeting is already in the parser's in-memory meeting cache, and taken
exactly when it is not — so in particular before every item requiring a
fresh transcription, but also before an item whose transcript is cached on
disk while its Meeting is not yet materialized (see the counterexample). -/
theorem backfill_delay_policy (st : ParserCaches) (d : Int) :
    (backfillItemDelay st d = 0 ↔ st.meetings.contains d = true) ∧
    (backfillItemDelay st d = 15 ↔ st.meetings.contains d = false) ∧
    (requiresFreshTranscription st d = true → backfillItemDelay st d = 15) := by
  refine ⟨?_, ?_, ?_⟩
  · by_cases hm : st.meetings.contains d <;> simp [backfillItemDelay, hm]
  · by_cases hm : st.meetings.contains d <;> simp [backfillItemDelay, hm]
  · intro h
    simp only [requiresFreshTranscription, Bool.and_eq_true] at h
    have hc : st.meetings.contains d = false := by simpa using h.1.1
    simp only [backfillItemDelay, hc, Bool.false_eq_true, if_false]

/-- C9 witness: the fresh-transcription implication of the policy discharged
at an entirely cold cache and date 0. -/
theorem backfill_delay_policy_witness :
    requiresFreshTranscription ⟨[], [], []⟩ 0 = true ∧
    backfillItemDelay ⟨[], [], []⟩ 0 = 15 :=
  ⟨by decide, (backfill_delay_policy ⟨[], [], []⟩ 0).2.2 (by decide)⟩

/-- C9 counterexample: date 737 has a disk-cached transcript (no fresh
transcription required, i.e. "already cached"), yet because it is not in the
meeting cache the loop still sleeps 15 seconds, contrary to the claim that
cached items incur no delay. -/
theorem backfill_delay_cached_transcript :
    requiresFreshTranscription ⟨[], [737], []⟩ 737 = false ∧
    backfillItemDelay ⟨[], [737], []⟩ 737 = 15 := by decide

/-- C10: two distinct paragraphs with equal start and end times receive the
same document id, so the batched upsert stores strictly fewer documents than
the meeting has paragraphs — one IndexedDocument per Paragraph fails in this
edge case. -/
theorem duplicate_timestamp_paragraphs_collapse (m : Meeting) (p q : Paragraph)
    (hp : p ∈ m.transcript) (hq : q ∈ m.transcript) (hne : p ≠ q)
    (hs : p.start_time = q.start_time) (he : p.end_time = q.end_time) :
    docId m p = docId m q ∧ (embed_meeting [] m).length < m.transcript.length := by
  have hid : docId m p = docId m q := by
    unfold docId; rw [hs, he]
  refine ⟨hid, ?_⟩
  unfold embed_meeting
  have hdup : ¬ ((m.transcript.map (fun r =>
      ({ id := docId m r, document := r.text, metadata := docMetadata m r } : StoredDoc))).map
        (fun d => d.id)).Nodup := by
    rw [List.map_map]
    intro hnd
    exact hne (List.inj_on_of_nodup_map hnd hp hq (by simpa using hid))
  have hlt := length_upsertBatch_lt_of_dup _ [] hdup
  simpa using hlt

/-- C10 witness: a meeting with two distinct paragraphs sharing start time 10
and end time 20 stores only one document for them. -/
theorem duplicate_timestamp_paragraphs_collapse_witness :
    (⟨10, 20, 1, ["a"]⟩ : Paragraph) ∈
      ({date := 737, group := "BOARD_OF_SUPERVISORS", group_id := 10,
        transcript := [⟨10, 20, 1, ["a"]⟩, ⟨10, 20, 2, ["b"]⟩], topics := [],
        video_url := "v", embed_url := "e"} : Meeting).transcript ∧
    (⟨10, 20, 2, ["b"]⟩ : Paragraph) ∈
      ({date := 737, group := "BOARD_OF_SUPERVISORS", group_id := 10,
        transcript := [⟨10, 20, 1, ["a"]⟩, ⟨10, 20, 2, ["b"]⟩], topics := [],
        video_url := "v", embed_url := "e"} : Meeting).transcript ∧
    (⟨10, 20, 1, ["a"]⟩ : Paragraph) ≠ (⟨10, 20, 2, ["b"]⟩ : Paragraph) ∧
    (docId
        ({date := 737, group := "BOARD_OF_SUPERVISORS", group_id := 10,
          transcript := [⟨10, 20, 1, ["a"]⟩, ⟨10, 20, 2, ["b"]⟩], topics := [],
          video_url := "v", embed_url := "e"} : Meeting) ⟨10, 20, 1, ["a"]⟩ =
      docId
        ({date := 737, group := "BOARD_OF_SUPERVISORS", group_id := 10,
          transcript := [⟨10, 20, 1, ["a"]⟩, ⟨10, 20, 2, ["b"]⟩], topics := [],
          video_url := "v", embed_url := "e"} : Meeting) ⟨10, 20, 2, ["b"]⟩ ∧
     (embed_meeting []
        ({date := 737, group := "BOARD_OF_SUPERVISORS", group_id := 10,
          transcript := [⟨10, 20, 1, ["a"]⟩, ⟨10, 20, 2, ["b"]⟩], topics := [],
          video_url := "v", embed_url := "e"} : Meeting)).length <
      ({date := 737, group := "BOARD_OF_SUPERVISORS", group_id := 10,
        transcript := [⟨10, 20, 1, ["a"]⟩, ⟨10, 20, 2, ["b"]⟩], topics := [],
        video_url := "v", embed_url := "e"} : Meeting).transcript.length) :=
  ⟨by decide, by decide, by decide,
    duplicate_timestamp_paragraphs_collapse _ _ _ (by decide) (by decide) (by decide)
      (by decide) (by decide)⟩

end CivicSignal
